import Mathlib

/-!
Shallow embedding of `src/create_checklist.py`, an XML-driven checklist
PDF generator.  The loader `parse_xml_data` and the layout engine
`generate_checklist_pdf` are translated into pure Lean functions.
Reportlab canvas draw calls become an explicit list of draw primitives
per page; Python exceptions become explicit outcome values; printed
status lines become tagged messages.  Coordinates are exact rationals
(reportlab points); font and colour state is not modelled, since no
property below concerns it.
-/

namespace Checklist

/-! ### Page and style constants (lines 11-33 of the script) -/

/-- Points per inch (reportlab unit). -/
def inch : ℚ := 72

/-- Points per millimetre (reportlab: `mm = inch / 25.4`). -/
def mm : ℚ := 360 / 127

/-- Reportlab `B6` page width: 125 mm. -/
def PAGE_WIDTH : ℚ := 125 * mm

/-- Reportlab `B6` page height: 176 mm. -/
def PAGE_HEIGHT : ℚ := 176 * mm

/-- `MARGIN = 0.20 * inch`. -/
def MARGIN : ℚ := 0.20 * inch

/-- `CATEGORY_STYLE["size"]`. -/
def category_size : ℚ := 8

/-- `CATEGORY_STYLE["space_after"] = 0.05 * inch`. -/
def category_space_after : ℚ := 0.05 * inch

/-- `ITEM_STYLE["size"]`. -/
def item_size : ℚ := 8

/-- `ITEM_STYLE["line_height"] = 0.12 * inch`. -/
def item_line_height : ℚ := 0.12 * inch

/-- `bullet_area_width = 0.3 * inch` (line 120). -/
def bullet_area_width : ℚ := 0.3 * inch

/-- `top_y = PAGE_HEIGHT - MARGIN - 0.2 * inch` (line 89). -/
def top_y : ℚ := PAGE_HEIGHT - MARGIN - 0.2 * inch

/-- `bottom_y = MARGIN` (line 90). -/
def bottom_y : ℚ := MARGIN

/-! ### Input model

An ElementTree element's `.text` is `None` for an empty element, so
element text is `Option String`.  A category's `name` attribute may be
absent (`category.get('name')` returns `None`); `bullet_style` uses the
default `''` when absent (`category.get('bullet_style', '')`), so an
absent attribute and an empty one are modelled alike, as the script
cannot distinguish them. -/

/-- One `<category>` node of the XML input. -/
structure CatNode where
  name : Option String
  bullet_style : String
  items : List (Option String)
deriving DecidableEq

/-- The parsed XML tree under the root: the optional `<title>` and
`<columns>` child elements (present or not, each with optional text)
and the `<category>` nodes in document order. -/
structure XmlRoot where
  titleElem : Option (Option String)
  columnsElem : Option (Option String)
  categoryNodes : List CatNode
deriving DecidableEq

/-- The condition of the input file as `ET.parse` sees it: missing
(`FileNotFoundError`), not well-formed (`ET.ParseError`), or a parsed
tree. -/
inductive XmlInput
  | missing
  | malformed
  | tree (root : XmlRoot)
deriving DecidableEq

/-! ### Loader (`parse_xml_data`, lines 39-72) -/

/-- One loaded category: `{"name": ..., "items": ..., "style": ...}`
(lines 58-62). -/
structure Category where
  name : String
  items : List String
  style : String
deriving DecidableEq

/-- Surrounding whitespace removed, as Python `int` does before parsing. -/
def pyStrip (cs : List Char) : List Char :=
  ((cs.dropWhile Char.isWhitespace).reverse.dropWhile Char.isWhitespace).reverse

/-- Python `int(s)` on a string: optional surrounding whitespace, an
optional sign, then decimal digits.  (Underscore separators and
non-ASCII digits, which CPython also accepts, are not modelled; no
property below involves them.)  `none` models a `ValueError`. -/
def pyInt (s : String) : Option Int :=
  let digitsVal : List Char → Int :=
    fun ds => (ds.foldl (fun a c => 10 * a + ((c.toNat : Int) - 48)) 0)
  match pyStrip s.data with
  | [] => none
  | c :: rest =>
    if c = '-' then
      if rest ≠ [] ∧ rest.all Char.isDigit then some (-(digitsVal rest)) else none
    else if c = '+' then
      if rest ≠ [] ∧ rest.all Char.isDigit then some (digitsVal rest) else none
    else
      if (c :: rest).all Char.isDigit then some (digitsVal (c :: rest)) else none

/-- Line 55: `[item.text for item in category.findall('item') if item.text]` —
Python truthiness drops both `None` and `''`. -/
def filterItems (items : List (Option String)) : List String :=
  items.filterMap fun t =>
    match t with
    | some s => if s = "" then none else some s
    | none => none

/-- Lines 53-62: one category node is kept iff its `name` attribute is
truthy and its filtered item list is non-empty (`if name and items`). -/
def parseCategory (c : CatNode) : Option Category :=
  let items := filterItems c.items
  match c.name with
  | some n => if n ≠ "" ∧ items ≠ [] then some ⟨n, items, c.bullet_style⟩ else none
  | none => none

/-- Lines 52-62: the loaded category list. -/
def parseCats (nodes : List CatNode) : List Category :=
  nodes.filterMap parseCategory

/-- Lines 46-47: `title_elem.text if title_elem is not None else 'Checklist'`.
Note the default applies only when the element is absent; a present but
empty `<title/>` yields Python `None` (modelled as `none`). -/
def loadedTitle (root : XmlRoot) : Option String :=
  match root.titleElem with
  | some t => t
  | none => some "Checklist"

/-- The status lines the script prints. -/
inductive Msg
  | parsedOk
  | errNotFound
  | errParse
  | errNoCategories
  | savedOk
deriving DecidableEq

/-- Exceptions that escape the script's own handlers. -/
inductive PyError
  | typeErrorIntOfNone
  | typeErrorDrawNone
  | zeroDivisionError
deriving DecidableEq

/-- Outcome of `parse_xml_data`: the returned triple, the
`(None, None, None)` failure return, or an uncaught exception.
`int(None)` on line 49 raises `TypeError`, which the
`except (ET.ParseError, ValueError)` clause does not catch. -/
inductive ParseResult
  | ok (title : Option String) (numColumns : Int) (categories : List Category)
  | failed
  | raised (e : PyError)
deriving DecidableEq

/-- `parse_xml_data` (lines 39-72), paired with the messages it prints. -/
def parse_xml_data (input : XmlInput) : ParseResult × List Msg :=
  match input with
  | .missing => (.failed, [.errNotFound])
  | .malformed => (.failed, [.errParse])
  | .tree root =>
    match root.columnsElem with
    | some none => (.raised .typeErrorIntOfNone, [])
    | some (some s) =>
      match pyInt s with
      | some n => (.ok (loadedTitle root) n (parseCats root.categoryNodes), [.parsedOk])
      | none => (.failed, [.errParse])
    | none => (.ok (loadedTitle root) 1 (parseCats root.categoryNodes), [.parsedOk])

/-! ### Draw primitives -/

/-- A reportlab draw call: `drawString`, `drawCentredString`,
`drawRightString`, `circle` (centre and radius), `rect` (corner, width,
height). -/
inductive Prim
  | text (x y : ℚ) (s : String)
  | centred (x y : ℚ) (s : String)
  | rightText (x y : ℚ) (s : String)
  | circle (cx cy r : ℚ)
  | rect (x y w h : ℚ)
deriving DecidableEq

/-- The y parameter of a primitive. -/
def primY : Prim → ℚ
  | .text _ y _ => y
  | .centred _ y _ => y
  | .rightText _ y _ => y
  | .circle _ cy _ => cy
  | .rect _ y _ _ => y

/-- The string of a textual primitive. -/
def primText : Prim → Option String
  | .text _ _ s => some s
  | .centred _ _ s => some s
  | .rightText _ _ s => some s
  | .circle _ _ _ => none
  | .rect _ _ _ _ => none

/-- Whether a primitive is a `drawCentredString` call. -/
def isCentred : Prim → Bool
  | .centred _ _ _ => true
  | _ => false

/-- Lines 83-84 / 105-106: the title drawn centred at the top of a page. -/
def titlePrim (t : String) : Prim :=
  .centred (PAGE_WIDTH / 2) (PAGE_HEIGHT - MARGIN) t

/-! ### Layout engine (`generate_checklist_pdf`, lines 74-148) -/

/-- Line 98-99: the fit-test height of one category block. -/
def category_height (cat : Category) : ℚ :=
  category_size * 1 + category_space_after + (cat.items.length : ℚ) * item_line_height

/-- Lines 122-142: the primitives of one item row at cursor `(x, y)`,
where `i` is the 0-based item index.  With an empty bullet style the
item text is drawn on line 130 and again on line 142 (where
`text_x = current_x`). -/
def drawItem (style : String) (x y : ℚ) (i : ℕ) (item_text : String) : List Prim :=
  if style = "" then
    [Prim.text x y item_text, Prim.text x y item_text]
  else if style = "dot" then
    [Prim.circle (x + 5) (y - 2) 2, Prim.text (x + bullet_area_width) y item_text]
  else if style = "box" then
    [Prim.rect x (y - (item_size * 0.8) * 0.1) (item_size * 0.8) (item_size * 0.8),
     Prim.text (x + bullet_area_width) y item_text]
  else if style = "number" then
    [Prim.rightText (x + 15) y (toString (i + 1) ++ "."),
     Prim.text (x + bullet_area_width) y item_text]
  else
    [Prim.text x y style, Prim.text (x + bullet_area_width) y item_text]

/-- The item loop of lines 122-143: primitives of the remaining items
and the final y cursor. -/
def drawItems (style : String) (x : ℚ) : ℚ → ℕ → List String → List Prim × ℚ
  | y, _, [] => ([], y)
  | y, i, t :: ts =>
    let ps := drawItem style x y i t
    let rest := drawItems style x (y - item_line_height) (i + 1) ts
    (ps ++ rest.1, rest.2)

/-- Lines 111-145: one category block drawn at cursor `(x, y)` — header,
items, and the trailing `current_y -= 0.2 * inch`. -/
def drawCatBlock (x y : ℚ) (cat : Category) : List Prim × ℚ :=
  let y1 := y - (category_size * 1 + category_space_after)
  let items := drawItems cat.style x y1 0 cat.items
  (Prim.text x y cat.name :: items.1, items.2 - 0.2 * inch)

/-- A record of where one category block was drawn. -/
structure Placement where
  x : ℚ
  y : ℚ
  cat : Category
deriving DecidableEq

/-- The layout cursor plus the accumulated pages.  `pages` are the
pages closed by `showPage`; `cur` is the page being drawn; `placs`
records each block's draw position. -/
structure LState where
  pages : List (List Prim)
  cur : List Prim
  x : ℚ
  y : ℚ
  col : ℤ
  placs : List Placement
deriving DecidableEq

/-- Line 88: `column_width = printable_width / num_columns` (unguarded;
the caller raises `ZeroDivisionError` before using this when
`num_columns = 0`). -/
def column_width (num_columns : ℤ) : ℚ :=
  (PAGE_WIDTH - 2 * MARGIN) / (num_columns : ℚ)

/-- Lines 102-109: advance to the next column, wrapping to a fresh page
(with the title redrawn) when the incremented index reaches
`num_columns`; then `current_x = MARGIN + col_index * column_width` and
`current_y = top_y`. -/
def advance (title : String) (num_columns : ℤ) (w : ℚ) (st : LState) : LState :=
  let ci := st.col + 1
  if num_columns ≤ ci then
    { st with pages := st.pages ++ [st.cur], cur := [titlePrim title],
              col := 0, x := MARGIN + 0 * w, y := top_y }
  else
    { st with col := ci, x := MARGIN + (ci : ℚ) * w, y := top_y }

/-- Lines 97-145: the body of the category loop — the fit test
(line 101), the optional advance, then the block draw. -/
def step (title : String) (num_columns : ℤ) (w : ℚ) (st : LState) (cat : Category) :
    LState :=
  let st1 :=
    if st.y - category_height cat < bottom_y ∧ st.y ≠ top_y then
      advance title num_columns w st
    else st
  let blk := drawCatBlock st1.x st1.y cat
  { st1 with cur := st1.cur ++ blk.1, y := blk.2,
             placs := st1.placs ++ [⟨st1.x, st1.y, cat⟩] }

/-- Lines 82-94: the canvas right after the title of page 1 is drawn
and the cursor initialised. -/
def initState (title : String) : LState :=
  { pages := [], cur := [titlePrim title], x := MARGIN, y := top_y,
    col := 0, placs := [] }

/-- The state after the whole category loop. -/
def layoutFinal (title : String) (num_columns : ℤ) (cats : List Category) : LState :=
  cats.foldl (step title num_columns (column_width num_columns)) (initState title)

/-- The pages `c.save()` writes: the closed pages plus the page still
open (reportlab's `save` ends the current page). -/
def layoutPages (title : String) (num_columns : ℤ) (cats : List Category) :
    List (List Prim) :=
  let fin := layoutFinal title num_columns cats
  fin.pages ++ [fin.cur]

/-- The draw position of every block, in order. -/
def placements (title : String) (num_columns : ℤ) (cats : List Category) :
    List Placement :=
  (layoutFinal title num_columns cats).placs

/-! ### Whole-program run -/

/-- Observable outcome of one run: printed status lines, an uncaught
exception if any, and the pages written to the output file (`none` when
`c.save()` is never reached). -/
structure RunResult where
  messages : List Msg
  crash : Option PyError
  output : Option (List (List Prim))
deriving DecidableEq

/-- Process exit status: 0 on normal return, 1 when an exception
escapes `__main__`. -/
def exitCode (r : RunResult) : ℕ :=
  if r.crash = none then 0 else 1

/-- `generate_checklist_pdf` (lines 74-148).  The `if not categories`
guard fires both on a failed parse (`categories is None`) and on an
empty surviving list.  The title is drawn (line 84) before
`column_width` is computed (line 88): `drawCentredString` with a `None`
title raises `TypeError`, and a zero column count raises
`ZeroDivisionError`, each before any page is saved. -/
def generate_checklist_pdf (input : XmlInput) : RunResult :=
  match parse_xml_data input with
  | (.raised e, ms) => { messages := ms, crash := some e, output := none }
  | (.failed, ms) =>
    { messages := ms ++ [.errNoCategories], crash := none, output := none }
  | (.ok title n cats, ms) =>
    if cats = [] then
      { messages := ms ++ [.errNoCategories], crash := none, output := none }
    else
      match title with
      | none => { messages := ms, crash := some .typeErrorDrawNone, output := none }
      | some t =>
        if n = 0 then
          { messages := ms, crash := some .zeroDivisionError, output := none }
        else
          { messages := ms ++ [.savedOk], crash := none,
            output := some (layoutPages t n cats) }

/-! ### Concrete inputs used by witnesses and counterexamples -/

/-- A category node that survives filtering. -/
def catNodeA : CatNode := ⟨some "A", "dot", [some "i"]⟩

/-- The corresponding loaded category. -/
def catA : Category := ⟨"A", ["i"], "dot"⟩

/-- A tree whose `<columns>` element reads `0`. -/
def rootZeroCols : XmlRoot := ⟨none, some (some "0"), [catNodeA]⟩

/-- A tree whose `<columns>` element is non-numeric. -/
def rootBadCols : XmlRoot := ⟨none, some (some "abc"), [catNodeA]⟩

/-- Another tree with a non-numeric `<columns>` element. -/
def rootBadCols2 : XmlRoot := ⟨none, some (some "x1"), [catNodeA]⟩

/-- A tree whose `<title>` element is present but empty. -/
def rootEmptyTitle : XmlRoot := ⟨some none, none, [catNodeA]⟩

/-- A tree with neither `<title>` nor `<columns>`, and one good category. -/
def rootGood : XmlRoot := ⟨none, none, [catNodeA]⟩

/-! ### C10 -/

/-- C10: the loader substitutes the default title `Checklist` only when the
title element is entirely absent from the source; a present title element
contributes its own text value — including the empty/missing value of an
empty element — never the default. -/
theorem c10_title_default_only_when_absent (root : XmlRoot) :
    (∀ te, root.titleElem = some te → loadedTitle root = te) ∧
    (root.titleElem = none → loadedTitle root = some "Checklist") ∧
    (root.titleElem = some none → loadedTitle root = none) :=
  ⟨fun te h => by simp [loadedTitle, h],
   fun h => by simp [loadedTitle, h],
   fun h => by simp [loadedTitle, h]⟩

/-- C10 witness: a present-but-empty title element loads as the missing
value, not as the default. -/
theorem c10_witness : loadedTitle rootEmptyTitle = none :=
  (c10_title_default_only_when_absent rootEmptyTitle).2.2 rfl

/-! ### C4 -/

/-- C4 counterexample: the claim says a non-positive `<columns>` value makes
the load fail, but the script only runs `int(...)` on the text — `0` parses
and the load succeeds, returning column count `0`. -/
theorem c4_counterexample_zero_columns_accepted :
    parse_xml_data (.tree rootZeroCols) =
      (.ok (some "Checklist") 0 [catA], [.parsedOk]) := rfl

/-- C4 (amended): if the column-count element is present with text, load
succeeds exactly when the text parses as an integer — positive or not —
and a non-numeric text makes the load fail on the `ValueError` path; if
the element is absent the loaded column count is `1`. -/
theorem c4_amended_columns_parse (root : XmlRoot) (s : String) :
    (root.columnsElem = some (some s) →
      (∀ k : ℤ, pyInt s = some k →
         parse_xml_data (.tree root) =
           (.ok (loadedTitle root) k (parseCats root.categoryNodes), [.parsedOk])) ∧
      (pyInt s = none → parse_xml_data (.tree root) = (.failed, [.errParse]))) ∧
    (root.columnsElem = none →
      parse_xml_data (.tree root) =
        (.ok (loadedTitle root) 1 (parseCats root.categoryNodes), [.parsedOk])) := by
  constructor
  · intro h
    constructor
    · intro k hk
      simp [parse_xml_data, h, hk]
    · intro hk
      simp [parse_xml_data, h, hk]
  · intro h
    simp [parse_xml_data, h]

/-- C4 witness: a non-numeric column count fails the load. -/
theorem c4_witness : parse_xml_data (.tree rootBadCols) = (.failed, [.errParse]) :=
  ((c4_amended_columns_parse rootBadCols "abc").1 rfl).2 rfl

/-! ### C6 -/

/-- Modelled from the spec (§4.1/§8), for comparison with the loader: an
item survives iff its text is present and non-empty. -/
def specItemKept : Option String → Bool
  | some s => s != ""
  | none => false

/-- Modelled from the spec: the surviving item texts of a category node,
in source order. -/
def specItems (c : CatNode) : List String :=
  (c.items.filter specItemKept).filterMap id

/-- Modelled from the spec: a category survives iff it has a non-empty
name and at least one surviving item. -/
def specSurvives (c : CatNode) : Bool :=
  (c.name.getD "" != "") && !(specItems c).isEmpty

/-- Modelled from the spec: the loaded model keeps exactly the surviving
categories, in source order, each with its filtered item list. -/
def specModel (nodes : List CatNode) : List Category :=
  (nodes.filter specSurvives).map fun c => ⟨c.name.getD "", specItems c, c.bullet_style⟩

theorem filterItems_eq_specItems (c : CatNode) : filterItems c.items = specItems c := by
  show filterItems c.items = (c.items.filter specItemKept).filterMap id
  induction c.items with
  | nil => rfl
  | cons t ts ih =>
    cases t with
    | none => simpa [filterItems, specItemKept, List.filterMap_cons, List.filter_cons]
        using ih
    | some s =>
      by_cases hs : s = "" <;>
        simpa [filterItems, specItemKept, List.filterMap_cons, List.filter_cons, hs]
          using ih

theorem parseCats_eq_specModel (nodes : List CatNode) :
    parseCats nodes = specModel nodes := by
  induction nodes with
  | nil => rfl
  | cons c cs ih =>
    have hit := filterItems_eq_specItems c
    cases hn : c.name with
    | none =>
      simpa [parseCats, specModel, parseCategory, specSurvives, hn,
        List.filterMap_cons, List.filter_cons] using ih
    | some nm =>
      by_cases hnm : nm = ""
      · simpa [parseCats, specModel, parseCategory, specSurvives, hn, hnm,
          List.filterMap_cons, List.filter_cons] using ih
      · by_cases hi : specItems c = []
        · simpa [parseCats, specModel, parseCategory, specSurvives, hn, hnm, hit, hi,
            List.filterMap_cons, List.filter_cons, List.isEmpty_iff] using ih
        · simpa [parseCats, specModel, parseCategory, specSurvives, hn, hnm, hit, hi,
            List.filterMap_cons, List.filter_cons, List.isEmpty_iff] using ih

/-- C6: whatever categories a successfully parsed source yields are exactly
the source categories with a non-empty name and at least one non-empty
item, in source order, with empty-text items removed — the spec-side
filter `specModel`. -/
theorem c6_loaded_model_filter (root : XmlRoot) (t : Option String) (n : ℤ)
    (cats : List Category) (ms : List Msg)
    (h : parse_xml_data (.tree root) = (.ok t n cats, ms)) :
    cats = specModel root.categoryNodes := by
  have hc : cats = parseCats root.categoryNodes := by
    cases hcol : root.columnsElem with
    | none =>
      simp [parse_xml_data, hcol] at h
      obtain ⟨⟨h1, h2, h3⟩, h4⟩ := h
      exact h3.symm
    | some txt =>
      cases txt with
      | none => simp [parse_xml_data, hcol] at h
      | some s =>
        cases hk : pyInt s with
        | none => simp [parse_xml_data, hcol, hk] at h
        | some k =>
          simp [parse_xml_data, hcol, hk] at h
          obtain ⟨⟨h1, h2, h3⟩, h4⟩ := h
          exact h3.symm
  rw [hc, parseCats_eq_specModel]

/-- C6 witness: the concrete good tree loads exactly its one surviving
category. -/
theorem c6_witness : [catA] = specModel rootGood.categoryNodes :=
  c6_loaded_model_filter rootGood (some "Checklist") 1 [catA] [.parsedOk] rfl

/-! ### C5 and C8 -/

/-- Whether a printed status line reports a failure (the lines printed
with a leading cross mark, and the abort line). -/
def isErr : Msg → Bool
  | .errNotFound => true
  | .errParse => true
  | .errNoCategories => true
  | .parsedOk => false
  | .savedOk => false

/-- The run signalled its failure to the operator: either an error status
line was printed, or an exception escaped (the interpreter then prints a
traceback and exits non-zero). -/
def reportsFailure (r : RunResult) : Prop :=
  r.messages.any isErr = true ∨ r.crash ≠ none

/-- C5: a run that writes the output exits with status 0, and on each of
the three failure modes of the claim — source missing, source unparsable,
and no surviving categories — the run exits non-zero or emits the
equivalent failure signal, a printed error line.  (The script in fact
returns normally after printing the error, so on these paths the exit
status is 0 and the disjunct satisfied is the printed signal.) -/
theorem c5_exit_status_and_failure_signal :
    (∀ input, (generate_checklist_pdf input).output.isSome = true →
       exitCode (generate_checklist_pdf input) = 0) ∧
    (exitCode (generate_checklist_pdf .missing) ≠ 0 ∨
       (generate_checklist_pdf .missing).messages.any isErr = true) ∧
    (exitCode (generate_checklist_pdf .malformed) ≠ 0 ∨
       (generate_checklist_pdf .malformed).messages.any isErr = true) ∧
    (∀ root, parseCats root.categoryNodes = [] →
       exitCode (generate_checklist_pdf (.tree root)) ≠ 0 ∨
       (generate_checklist_pdf (.tree root)).messages.any isErr = true) := by
  refine ⟨?_, ?_, ?_, ?_⟩
  · intro input h
    cases input with
    | missing => simp [generate_checklist_pdf, parse_xml_data] at h
    | malformed => simp [generate_checklist_pdf, parse_xml_data] at h
    | tree root =>
      cases hcol : root.columnsElem with
      | none =>
        by_cases hc : parseCats root.categoryNodes = [] <;>
          cases ht : loadedTitle root <;>
          simp_all [generate_checklist_pdf, parse_xml_data, exitCode]
      | some txt =>
        cases txt with
        | none => simp [generate_checklist_pdf, parse_xml_data, hcol] at h
        | some s =>
          cases hk : pyInt s with
          | none => simp [generate_checklist_pdf, parse_xml_data, hcol, hk] at h
          | some k =>
            by_cases hc : parseCats root.categoryNodes = []
            · simp_all [generate_checklist_pdf, parse_xml_data, exitCode]
            · cases ht : loadedTitle root
              · simp_all [generate_checklist_pdf, parse_xml_data, exitCode]
              · simp_all [generate_checklist_pdf, parse_xml_data, exitCode]
                split_ifs at h ⊢ <;> simp_all
  · right
    simp [generate_checklist_pdf, parse_xml_data, isErr]
  · right
    simp [generate_checklist_pdf, parse_xml_data, isErr]
  · intro root hc
    cases hcol : root.columnsElem with
    | none =>
      right
      simp [generate_checklist_pdf, parse_xml_data, hcol, hc, isErr]
    | some txt =>
      cases txt with
      | none =>
        left
        simp [generate_checklist_pdf, parse_xml_data, hcol, exitCode]
      | some s =>
        cases hk : pyInt s with
        | none =>
          right
          simp [generate_checklist_pdf, parse_xml_data, hcol, hk, isErr]
        | some k =>
          right
          simp [generate_checklist_pdf, parse_xml_data, hcol, hk, hc, isErr]

/-- C5 witness: the good tree runs to completion with exit status 0. -/
theorem c5_witness : exitCode (generate_checklist_pdf (.tree rootGood)) = 0 :=
  c5_exit_status_and_failure_signal.1 (.tree rootGood) rfl

/-- C8: on every failing run of the claim — source missing, tree
unparsable, numeric column field unparsable, or zero categories surviving
filtering — the run reports the failure and the output target is never
written. -/
theorem c8_failures_report_and_write_nothing :
    ((generate_checklist_pdf .missing).output = none ∧
       reportsFailure (generate_checklist_pdf .missing)) ∧
    ((generate_checklist_pdf .malformed).output = none ∧
       reportsFailure (generate_checklist_pdf .malformed)) ∧
    (∀ root s, root.columnsElem = some (some s) → pyInt s = none →
       (generate_checklist_pdf (.tree root)).output = none ∧
       reportsFailure (generate_checklist_pdf (.tree root))) ∧
    (∀ root, parseCats root.categoryNodes = [] →
       (generate_checklist_pdf (.tree root)).output = none ∧
       reportsFailure (generate_checklist_pdf (.tree root))) := by
  refine ⟨?_, ?_, ?_, ?_⟩
  · exact ⟨rfl, Or.inl (by simp [generate_checklist_pdf, parse_xml_data, isErr])⟩
  · exact ⟨rfl, Or.inl (by simp [generate_checklist_pdf, parse_xml_data, isErr])⟩
  · intro root s hcol hk
    constructor
    · simp [generate_checklist_pdf, parse_xml_data, hcol, hk]
    · exact Or.inl (by simp [generate_checklist_pdf, parse_xml_data, hcol, hk, isErr])
  · intro root hc
    cases hcol : root.columnsElem with
    | none =>
      constructor
      · simp [generate_checklist_pdf, parse_xml_data, hcol, hc]
      · exact Or.inl
          (by simp [generate_checklist_pdf, parse_xml_data, hcol, hc, isErr])
    | some txt =>
      cases txt with
      | none =>
        constructor
        · simp [generate_checklist_pdf, parse_xml_data, hcol]
        · exact Or.inr (by simp [generate_checklist_pdf, parse_xml_data, hcol])
      | some s =>
        cases hk : pyInt s with
        | none =>
          constructor
          · simp [generate_checklist_pdf, parse_xml_data, hcol, hk]
          · exact Or.inl
              (by simp [generate_checklist_pdf, parse_xml_data, hcol, hk, isErr])
        | some k =>
          constructor
          · simp [generate_checklist_pdf, parse_xml_data, hcol, hk, hc]
          · exact Or.inl
              (by simp [generate_checklist_pdf, parse_xml_data, hcol, hk, hc, isErr])

/-- C8 witness: a run with a non-numeric column count writes nothing. -/
theorem c8_witness : (generate_checklist_pdf (.tree rootBadCols2)).output = none :=
  (c8_failures_report_and_write_nothing.2.2.1 rootBadCols2 "x1" rfl rfl).1

/-! ### C9 -/

/-- C9: a column-count field whose text parses to `0` is accepted by the
loader, and any such document with at least one surviving category (and a
drawable title) then reaches the unguarded division
`printable_width / num_columns`, raising `ZeroDivisionError` before any
output is produced. -/
theorem c9_zero_columns_reaches_division_by_zero (root : XmlRoot) (s : String)
    (h1 : root.columnsElem = some (some s)) (h2 : pyInt s = some 0)
    (h3 : parseCats root.categoryNodes ≠ []) (h4 : root.titleElem ≠ some none) :
    parse_xml_data (.tree root) =
      (.ok (loadedTitle root) 0 (parseCats root.categoryNodes), [.parsedOk]) ∧
    (generate_checklist_pdf (.tree root)).crash = some .zeroDivisionError ∧
    (generate_checklist_pdf (.tree root)).output = none := by
  have hp : parse_xml_data (.tree root) =
      (.ok (loadedTitle root) 0 (parseCats root.categoryNodes), [.parsedOk]) := by
    simp [parse_xml_data, h1, h2]
  have ht : ∃ t, loadedTitle root = some t := by
    cases hte : root.titleElem with
    | none => exact ⟨"Checklist", by simp [loadedTitle, hte]⟩
    | some te =>
      cases te with
      | none => exact absurd hte h4
      | some t => exact ⟨t, by simp [loadedTitle, hte]⟩
  obtain ⟨t, ht⟩ := ht
  refine ⟨hp, ?_, ?_⟩ <;> simp [generate_checklist_pdf, hp, h3, ht]

/-- C9 witness: the concrete tree with `<columns>0</columns>` crashes on
the division. -/
theorem c9_witness :
    (generate_checklist_pdf (.tree rootZeroCols)).crash = some .zeroDivisionError :=
  (c9_zero_columns_reaches_division_by_zero rootZeroCols "0" rfl rfl
    (by simp [parseCats, parseCategory, filterItems, rootZeroCols, catNodeA])
    (by simp [rootZeroCols])).2.1

/-! ### C7 -/

/-- C7: when the cursor sits at the pristine top of a column
(`current_y == top_y`, as set by initialisation and by every advance),
the fit test of line 101 can never fire, whatever the block height: no
column or page advance happens, and the block is drawn in place at the
current cursor. -/
theorem c7_pristine_top_never_advances (title : String) (n : ℤ) (w : ℚ)
    (st : LState) (cat : Category) (h : st.y = top_y) :
    (step title n w st cat).pages = st.pages ∧
    (step title n w st cat).col = st.col ∧
    (step title n w st cat).x = st.x ∧
    (step title n w st cat).placs = st.placs ++ [⟨st.x, top_y, cat⟩] ∧
    (step title n w st cat).cur = st.cur ++ (drawCatBlock st.x top_y cat).1 := by
  simp [step, h]

/-- C7 witness: at the freshly initialised state even a very tall block
(fifty thousand items) is drawn in place. -/
theorem c7_witness :
    (step "T" 1 1 (initState "T") ⟨"A", List.replicate 50000 "i", "dot"⟩).col =
      (initState "T").col :=
  (c7_pristine_top_never_advances "T" 1 1 (initState "T")
    ⟨"A", List.replicate 50000 "i", "dot"⟩ rfl).2.1

/-! ### C2 -/

theorem drawItem_y_ge (style : String) (x y : ℚ) (i : ℕ) (t : String) :
    ∀ p ∈ drawItem style x y i t, y - 2 ≤ primY p := by
  intro p hp
  unfold drawItem at hp
  split_ifs at hp <;>
    simp only [List.mem_cons, List.not_mem_nil, or_false] at hp <;>
    rcases hp with hp | hp <;> subst hp <;>
    simp only [primY, item_size] <;> linarith

theorem drawItems_y_ge (style : String) (x : ℚ) :
    ∀ (items : List String) (y : ℚ) (i : ℕ),
      ∀ p ∈ (drawItems style x y i items).1,
        y - (items.length : ℚ) * item_line_height ≤ primY p := by
  intro items
  induction items with
  | nil =>
    intro y i p hp
    simp [drawItems] at hp
  | cons t ts ih =>
    intro y i p hp
    have hlh : (2 : ℚ) ≤ item_line_height := by norm_num [item_line_height, inch]
    have hts : (0 : ℚ) ≤ (ts.length : ℚ) * item_line_height :=
      mul_nonneg (by positivity) (by linarith)
    simp only [drawItems, List.mem_append] at hp
    rcases hp with hp | hp
    · have hd := drawItem_y_ge style x y i t p hp
      push_cast [List.length_cons]
      linarith
    · have hr := ih (y - item_line_height) (i + 1) p hp
      push_cast [List.length_cons]
      linarith

theorem drawCatBlock_y_ge (x y : ℚ) (cat : Category) :
    ∀ p ∈ (drawCatBlock x y cat).1, y - category_height cat ≤ primY p := by
  intro p hp
  simp only [drawCatBlock, List.mem_cons] at hp
  rcases hp with hp | hp
  · subst hp
    have hlh : (0 : ℚ) ≤ (cat.items.length : ℚ) * item_line_height :=
      mul_nonneg (by positivity) (by norm_num [item_line_height, inch])
    simp only [primY, category_height]
    norm_num [category_size, category_space_after, inch]
    linarith
  · have hi := drawItems_y_ge cat.style x cat.items
      (y - (category_size * 1 + category_space_after)) 0 p hp
    have h2 : y - category_height cat =
        y - (category_size * 1 + category_space_after) -
          (cat.items.length : ℚ) * item_line_height := by
      simp only [category_height]
      ring
    rw [h2]
    exact hi

theorem step_placement_good (title : String) (n : ℤ) (w : ℚ) (st : LState)
    (cat : Category) :
    ∃ x1 y1, (step title n w st cat).placs = st.placs ++ [⟨x1, y1, cat⟩] ∧
      (y1 = top_y ∨ bottom_y ≤ y1 - category_height cat) := by
  by_cases hc : st.y - category_height cat < bottom_y ∧ st.y ≠ top_y
  · by_cases hw : n ≤ st.col + 1
    · refine ⟨MARGIN + 0 * w, top_y, ?_, Or.inl rfl⟩
      simp [step, advance, hc.1, hc.2, hw]
    · refine ⟨MARGIN + ((st.col + 1 : ℤ) : ℚ) * w, top_y, ?_, Or.inl rfl⟩
      simp [step, advance, hc.1, hc.2, hw]
  · by_cases hy : st.y = top_y
    · refine ⟨st.x, st.y, ?_, Or.inl hy⟩
      simp [step, hy]
    · have hb : bottom_y ≤ st.y - category_height cat := by
        by_contra hlt
        push_neg at hlt
        exact hc ⟨hlt, hy⟩
      refine ⟨st.x, st.y, ?_, Or.inr hb⟩
      simp [step, hc]

theorem foldl_placs_good (title : String) (n : ℤ) (w : ℚ) :
    ∀ (cats : List Category) (st : LState),
      (∀ plc ∈ st.placs, plc.y = top_y ∨ bottom_y ≤ plc.y - category_height plc.cat) →
      ∀ plc ∈ (cats.foldl (step title n w) st).placs,
        plc.y = top_y ∨ bottom_y ≤ plc.y - category_height plc.cat := by
  intro cats
  induction cats with
  | nil =>
    intro st h
    simpa using h
  | cons c cs ih =>
    intro st h
    simp only [List.foldl_cons]
    apply ih
    intro plc hplc
    obtain ⟨x1, y1, heq, hgood⟩ := step_placement_good title n w st c
    rw [heq] at hplc
    rcases List.mem_append.mp hplc with hm | hm
    · exact h plc hm
    · simp only [List.mem_singleton] at hm
      rw [hm]
      exact hgood

/-- C2: every category block is placed either at the pristine top of a
column or at a cursor from which its computed height stays above the
bottom margin; consequently a block whose height fits within one full
column (the only exception the claim allows is a block taller than a
column) has every one of its primitives drawn at or above `bottom_y` —
the engine advanced before emitting anything that would cross the
margin. -/
theorem c2_block_atomicity (title : String) (n : ℤ) (cats : List Category)
    (plc : Placement) (hm : plc ∈ placements title n cats) :
    (plc.y = top_y ∨ bottom_y ≤ plc.y - category_height plc.cat) ∧
    (category_height plc.cat ≤ top_y - bottom_y →
      ∀ p ∈ (drawCatBlock plc.x plc.y plc.cat).1, bottom_y ≤ primY p) := by
  simp only [placements, layoutFinal] at hm
  have hg := foldl_placs_good title n (column_width n) cats (initState title)
    (by simp [initState]) plc hm
  refine ⟨hg, fun hfit p hp => ?_⟩
  have hb := drawCatBlock_y_ge plc.x plc.y plc.cat p hp
  rcases hg with h1 | h1
  · rw [h1] at hb
    linarith
  · linarith

/-- C2 witness: in the one-category layout the header primitive sits
above the bottom margin. -/
theorem c2_witness : bottom_y ≤ primY (Prim.text MARGIN top_y "A") :=
  (c2_block_atomicity "T" 1 [catA] ⟨MARGIN, top_y, catA⟩
    (by simp [placements, layoutFinal, initState, step, drawCatBlock, drawItems,
      drawItem, catA])).2
    (by norm_num [category_height, catA, top_y, bottom_y, MARGIN, PAGE_HEIGHT, mm,
      inch, category_size, category_space_after, item_line_height])
    (Prim.text MARGIN top_y "A")
    (by simp [drawCatBlock, catA])

/-! ### C3 -/

theorem step_col_in_range (title : String) (n : ℤ) (w : ℚ) (st : LState)
    (cat : Category) (hn : 1 ≤ n) (h0 : 0 ≤ st.col) (h1 : st.col < n) :
    0 ≤ (step title n w st cat).col ∧ (step title n w st cat).col < n := by
  by_cases hc : st.y - category_height cat < bottom_y ∧ st.y ≠ top_y
  · by_cases hw : n ≤ st.col + 1
    · refine ⟨?_, ?_⟩
      · simp [step, advance, hc.1, hc.2, hw]
      · simp [step, advance, hc.1, hc.2, hw]
        omega
    · constructor <;> simp [step, advance, hc.1, hc.2, hw] <;> omega
  · constructor <;> simp [step, hc] <;> omega

theorem foldl_col_in_range (title : String) (n : ℤ) (w : ℚ) (hn : 1 ≤ n) :
    ∀ (cats : List Category) (st : LState), 0 ≤ st.col → st.col < n →
      0 ≤ (cats.foldl (step title n w) st).col ∧
      (cats.foldl (step title n w) st).col < n := by
  intro cats
  induction cats with
  | nil =>
    intro st h0 h1
    exact ⟨h0, h1⟩
  | cons c cs ih =>
    intro st h0 h1
    obtain ⟨g0, g1⟩ := step_col_in_range title n w st c hn h0 h1
    simpa only [List.foldl_cons] using ih (step title n w st c) g0 g1

theorem step_new_page_characterisation (title : String) (n : ℤ) (w : ℚ)
    (st : LState) (cat : Category) (h1 : st.col < n) :
    ((step title n w st cat).pages ≠ st.pages ↔
      ((st.y - category_height cat < bottom_y ∧ st.y ≠ top_y) ∧ st.col + 1 = n)) ∧
    (((st.y - category_height cat < bottom_y ∧ st.y ≠ top_y) ∧ st.col + 1 = n) →
      (step title n w st cat).pages = st.pages ++ [st.cur] ∧
      (step title n w st cat).col = 0) := by
  by_cases hc : st.y - category_height cat < bottom_y ∧ st.y ≠ top_y
  · by_cases hw : n ≤ st.col + 1
    · have he : st.col + 1 = n := by omega
      have hpg : (step title n w st cat).pages = st.pages ++ [st.cur] := by
        simp [step, advance, hc.1, hc.2, hw]
      have hcol : (step title n w st cat).col = 0 := by
        simp [step, advance, hc.1, hc.2, hw]
      have hne : (step title n w st cat).pages ≠ st.pages := by
        rw [hpg]
        intro hcontra
        have := congrArg List.length hcontra
        simp at this
      exact ⟨⟨fun _ => ⟨hc, he⟩, fun _ => hne⟩, fun _ => ⟨hpg, hcol⟩⟩
    · have hpg : (step title n w st cat).pages = st.pages := by
        simp [step, advance, hc.1, hc.2, hw]
      constructor
      · constructor
        · intro hne
          exact absurd hpg hne
        · intro hh
          omega
      · intro hh
        omega
  · have hpg : (step title n w st cat).pages = st.pages := by
      simp [step, hc]
    constructor
    · constructor
      · intro hne
        exact absurd hpg hne
      · intro hh
        exact absurd hh.1 hc
    · intro hh
      exact absurd hh.1 hc

theorem drawItem_no_centred (style : String) (x y : ℚ) (i : ℕ) (t : String) :
    (drawItem style x y i t).filter isCentred = [] := by
  unfold drawItem
  split_ifs <;> rfl

theorem drawItems_no_centred (style : String) (x : ℚ) :
    ∀ (items : List String) (y : ℚ) (i : ℕ),
      (drawItems style x y i items).1.filter isCentred = [] := by
  intro items
  induction items with
  | nil =>
    intro y i
    rfl
  | cons t ts ih =>
    intro y i
    simp [drawItems, List.filter_append, drawItem_no_centred, ih]

theorem drawCatBlock_no_centred (x y : ℚ) (cat : Category) :
    (drawCatBlock x y cat).1.filter isCentred = [] := by
  simp [drawCatBlock, List.filter_cons, isCentred, drawItems_no_centred]

/-- A page carries the title exactly once, as its first primitive. -/
def titledOnce (t : String) (pg : List Prim) : Prop :=
  pg.head? = some (titlePrim t) ∧ (pg.filter isCentred).length = 1

theorem titledOnce_append (t : String) (pg ps : List Prim) (h : titledOnce t pg)
    (hps : ps.filter isCentred = []) : titledOnce t (pg ++ ps) := by
  obtain ⟨h1, h2⟩ := h
  constructor
  · cases pg with
    | nil => simp at h1
    | cons a l => simpa using h1
  · simp [List.filter_append, hps, h2]

theorem titlePage_titledOnce (t : String) : titledOnce t [titlePrim t] := by
  constructor
  · rfl
  · rfl

/-- The cursor state keeps the per-page title property. -/
def InvPages (t : String) (st : LState) : Prop :=
  titledOnce t st.cur ∧ ∀ pg ∈ st.pages, titledOnce t pg

theorem step_cur_shape (title : String) (n : ℤ) (w : ℚ) (st : LState)
    (cat : Category) :
    ∃ xx yy,
      ((step title n w st cat).cur = st.cur ++ (drawCatBlock xx yy cat).1 ∧
        (step title n w st cat).pages = st.pages) ∨
      ((step title n w st cat).cur = [titlePrim title] ++ (drawCatBlock xx yy cat).1 ∧
        (step title n w st cat).pages = st.pages ++ [st.cur]) := by
  by_cases hc : st.y - category_height cat < bottom_y ∧ st.y ≠ top_y
  · by_cases hw : n ≤ st.col + 1
    · refine ⟨MARGIN + 0 * w, top_y, Or.inr ⟨?_, ?_⟩⟩ <;>
        simp [step, advance, hc.1, hc.2, hw]
    · refine ⟨MARGIN + ((st.col + 1 : ℤ) : ℚ) * w, top_y, Or.inl ⟨?_, ?_⟩⟩ <;>
        simp [step, advance, hc.1, hc.2, hw]
  · refine ⟨st.x, st.y, Or.inl ⟨?_, ?_⟩⟩ <;> simp [step, hc]

theorem step_inv_pages (title : String) (n : ℤ) (w : ℚ) (st : LState)
    (cat : Category) (h : InvPages title st) :
    InvPages title (step title n w st cat) := by
  obtain ⟨hcur, hpages⟩ := h
  obtain ⟨xx, yy, hshape⟩ := step_cur_shape title n w st cat
  rcases hshape with ⟨hcurEq, hpgEq⟩ | ⟨hcurEq, hpgEq⟩
  · constructor
    · rw [hcurEq]
      exact titledOnce_append title st.cur _ hcur (drawCatBlock_no_centred xx yy cat)
    · rw [hpgEq]
      exact hpages
  · constructor
    · rw [hcurEq]
      exact titledOnce_append title [titlePrim title] _ (titlePage_titledOnce title)
        (drawCatBlock_no_centred xx yy cat)
    · rw [hpgEq]
      intro pg hpg
      rcases List.mem_append.mp hpg with hm | hm
      · exact hpages pg hm
      · simp only [List.mem_singleton] at hm
        rw [hm]
        exact hcur

theorem foldl_inv_pages (title : String) (n : ℤ) (w : ℚ) :
    ∀ (cats : List Category) (st : LState), InvPages title st →
      InvPages title (cats.foldl (step title n w) st) := by
  intro cats
  induction cats with
  | nil =>
    intro st h
    exact h
  | cons c cs ih =>
    intro st h
    simpa only [List.foldl_cons] using ih _ (step_inv_pages title n w st c h)

/-- C3: throughout the layout of any category list with `columnCount ≥ 1`,
the column index stays in `[0, columnCount)`; a step opens a new page
exactly when the fit test fires and the advanced index would reach
`columnCount` (the index then resets to 0); and every produced page —
the first and every wrapped one — carries the centred title exactly
once, as its first (topmost) primitive. -/
theorem c3_column_range_wrap_and_title (title : String) (n : ℤ) (w : ℚ)
    (cats : List Category) (hn : 1 ≤ n) :
    (∀ pre suf, cats = pre ++ suf →
      0 ≤ (pre.foldl (step title n (column_width n)) (initState title)).col ∧
      (pre.foldl (step title n (column_width n)) (initState title)).col < n) ∧
    (∀ st cat, st.col < n →
      (((step title n w st cat).pages ≠ st.pages ↔
        ((st.y - category_height cat < bottom_y ∧ st.y ≠ top_y) ∧ st.col + 1 = n)) ∧
       (((st.y - category_height cat < bottom_y ∧ st.y ≠ top_y) ∧ st.col + 1 = n) →
        (step title n w st cat).pages = st.pages ++ [st.cur] ∧
        (step title n w st cat).col = 0))) ∧
    (∀ pg ∈ layoutPages title n cats, titledOnce title pg) := by
  refine ⟨?_, ?_, ?_⟩
  · intro pre suf hsplit
    exact foldl_col_in_range title n (column_width n) hn pre (initState title)
      (by simp [initState]) (by simp [initState]; omega)
  · intro st cat h1
    exact step_new_page_characterisation title n w st cat h1
  · have hinv : InvPages title (layoutFinal title n cats) := by
      apply foldl_inv_pages
      exact ⟨titlePage_titledOnce title, by simp [initState]⟩
    intro pg hpg
    simp only [layoutPages] at hpg
    rcases List.mem_append.mp hpg with hm | hm
    · exact hinv.2 pg hm
    · simp only [List.mem_singleton] at hm
      rw [hm]
      exact hinv.1

/-- C3 witness: after laying out one category in one column, the column
index is still inside `[0, 1)`. -/
theorem c3_witness :
    0 ≤ (([catA]).foldl (step "T" 1 (column_width 1)) (initState "T")).col ∧
    (([catA]).foldl (step "T" 1 (column_width 1)) (initState "T")).col < 1 :=
  (c3_column_range_wrap_and_title "T" 1 0 [catA] (by norm_num)).1 [catA] []
    (by simp)

/-! ### C1 -/

/-- How many textual draw primitives across all pages carry the string
`s`. -/
def textCount (pages : List (List Prim)) (s : String) : ℕ :=
  pages.flatten.countP fun p => primText p == some s

/-- C1 (code bug at the failing input): for a category with the
empty/none bullet style and the single item `Shirt`, the layout emits
the item text twice — line 130 draws it inside the empty-bullet branch
and line 142 draws it again at the same `text_x = current_x` — while the
claim (and spec §4.2) require each item to appear exactly once, flush at
x.  The layout does produce one page, as the claim's first half says. -/
theorem c1_empty_style_item_drawn_twice :
    textCount (layoutPages "Packing" 1 [⟨"Clothes", ["Shirt"], ""⟩]) "Shirt" = 2 ∧
    (layoutPages "Packing" 1 [⟨"Clothes", ["Shirt"], ""⟩]).length = 1 := by
  constructor <;>
    simp [textCount, layoutPages, layoutFinal, initState, step, drawCatBlock,
      drawItems, drawItem, primText, titlePrim, List.countP_cons]

end Checklist
